import Mathlib

/-!
Verification development for the C++ quick-reference single-page app.

The definitions below are a shallow embedding of the JavaScript source:
* `mapGet` / `mapSet` / `mapDelete` model the JS `Map` operations used by the
  content loader (`this.cache`, `this.loadingPromises`, `this.retryCount`)
  and the tooltip manager (`this.definitionMap`), as association lists.
* The text/pattern matcher (`TooltipManager.findMatches`) is embedded over
  `List Char` texts; a trigger regex is modelled semantically by its
  match-length function at each position (`Pattern`), and the `g`-flag
  `exec` scanning loop by `scanPattern`.
* The DOM rewriting of `TooltipManager.decorate` / `processTextNode` is
  embedded over an inductive node tree `DNode`.
* The content loader (`ContentLoader.loadContent` / `_fetchContent` /
  `_getFallbackContent`) is embedded as explicit state passing over
  `LoaderState`, with the network modelled as a function from attempt
  index to outcome.
-/

set_option maxHeartbeats 1000000
set_option maxRecDepth 100000

/-! ### JS `Map` model (association lists, insertion order preserved) -/

def mapGet {α : Type} : List (String × α) → String → Option α
  | [], _ => none
  | (k', v) :: rest, k => if k' = k then some v else mapGet rest k

def mapSet {α : Type} : List (String × α) → String → α → List (String × α)
  | [], k, v => [(k, v)]
  | (k', v') :: rest, k, v =>
      if k' = k then (k, v) :: rest else (k', v') :: mapSet rest k v

def mapDelete {α : Type} : List (String × α) → String → List (String × α)
  | [], _ => []
  | (k', v) :: rest, k =>
      if k' = k then mapDelete rest k else (k', v) :: mapDelete rest k

/-! ### Pattern matcher (`TooltipManager.findMatches`)

A trigger regex is modelled by the partial function giving, for a text and a
position, the length of the (unique, deterministic) match the regex produces
at that position, if any. -/

structure Pattern where
  matchLen : List Char → Nat → Option Nat

/-- Literal regex such as `/std::move/`: matches at `i` iff the text contains
exactly the literal characters starting at `i`. -/
def Pattern.lit (s : List Char) : Pattern :=
  ⟨fun t i => if (t.drop i).take s.length = s then some s.length else none⟩

def isWordChar (c : Char) : Bool := c.isAlphanum || c = '_'

/-- Boundary test: `\b` holds before position `i` for a word character at `i`. -/
def prevNonWord (t : List Char) : Nat → Bool
  | 0 => true
  | j + 1 =>
      match t.get? j with
      | some c => !isWordChar c
      | none => true

/-- Boundary test: `\b` holds after position `i-1` for a word character at `i-1`. -/
def nextNonWord (t : List Char) (i : Nat) : Bool :=
  match t.get? i with
  | some c => !isWordChar c
  | none => true

/-- Lookahead `(?=\s*\()`: whitespace then an opening parenthesis. -/
def wsThenParen (l : List Char) : Bool :=
  match l.dropWhile (fun c => c.isWhitespace) with
  | '(' :: _ => true
  | _ => false

/-- The `/\bmove\b(?=\s*\()/` trigger of the `std-move` definition. -/
def moveTrigger : Pattern :=
  ⟨fun t i =>
    if (t.drop i).take 4 = "move".toList ∧ prevNonWord t i = true ∧
        nextNonWord t (i + 4) = true ∧ wsThenParen (t.drop (i + 4)) = true
    then some 4 else none⟩

/-- A tooltip definition as consumed by `findMatches`: only the id and the
trigger patterns matter for matching. -/
structure TermDef where
  id : String
  triggers : List Pattern

/-- A match record as built in `findMatches` (the JS `end` field is spelled
`end_`; the redundant `context` back-pointer to the definition is omitted). -/
structure Match where
  start : Nat
  end_ : Nat
  length : Nat
  text : List Char
  definitionId : String
deriving Repr, DecidableEq

def findFromAux (p : Pattern) (t : List Char) : Nat → Nat → Option (Nat × Nat)
  | 0, _ => none
  | fuel + 1, i =>
      match p.matchLen t i with
      | some n => some (i, n)
      | none => findFromAux p t fuel (i + 1)

/-- One `pattern.exec` call: first match at a position `≥ i`; the search space is the
positions `i, …, t.length`. -/
def findFrom (p : Pattern) (t : List Char) (i : Nat) : Option (Nat × Nat) :=
  findFromAux p t (t.length + 1 - i) i

/-- The `while ((result = pattern.exec(text)) !== null)` loop: repeated `exec`
with `lastIndex` advanced past each match. -/
def scanFrom (p : Pattern) (t : List Char) (i : Nat) : Nat → List (Nat × Nat)
  | 0 => []
  | fuel + 1 =>
      match findFrom p t i with
      | none => []
      | some (j, n) => (j, n) :: scanFrom p t (j + n) fuel

def scanPattern (p : Pattern) (t : List Char) : List (Nat × Nat) :=
  scanFrom p t 0 (t.length + 1)

/-- All raw matches collected over every definition and trigger. -/
def rawMatches (defs : List TermDef) (t : List Char) : List Match :=
  defs.flatMap fun d =>
    d.triggers.flatMap fun p =>
      (scanPattern p t).map fun jn =>
        { start := jn.1
          end_ := jn.1 + jn.2
          length := jn.2
          text := (t.drop jn.1).take jn.2
          definitionId := d.id }

/-- The sort comparator: ascending `start`, ties by descending `length`. -/
def matchLE (a b : Match) : Bool :=
  if a.start = b.start then decide (b.length ≤ a.length) else decide (a.start < b.start)

/-- The greedy sweep keeping a match only when `match.start >= currentEnd`. -/
def sweepMatches (c : Int) : List Match → List Match
  | [] => []
  | m :: ms =>
      if c ≤ (m.start : Int) then m :: sweepMatches (m.end_ : Int) ms
      else sweepMatches c ms

/-- The matcher `TooltipManager.findMatches`. -/
def findMatches (defs : List TermDef) (t : List Char) : List Match :=
  let ms := rawMatches defs t
  if ms.isEmpty then ms
  else sweepMatches (-1) (List.insertionSort (fun a b => matchLE a b = true) ms)

/-- The `std-move` entry of `DEFAULT_TOOLTIP_DEFINITIONS` (triggers
`/std::move/` and `/\bmove\b(?=\s*\()/`), as seen by the matcher. -/
def stdMoveDef : TermDef :=
  { id := "std-move", triggers := [Pattern.lit "std::move".toList, moveTrigger] }

def sampleMoveText : List Char := "std::move(source)".toList

/-! ### DOM model and `TooltipManager.decorate`

A node is a text node or an element with a tag, a class list and children.
The walk context carries what `shouldProcessNode` / `isCodeContext` read from
the ancestors of a text node: whether `closest('.tooltip-term')` or
`closest('.tooltip-popover')` on the parent element would hit, the parent's
tag name, and whether the nearest relevant ancestor is a CODE/PRE element. -/

inductive DNode where
  | text (value : List Char)
  | elem (tag : String) (classes : List String) (children : List DNode)
deriving Repr

structure WalkCtx where
  inTerm : Bool
  inPopover : Bool
  parentTag : String
  inCode : Bool
deriving Repr, DecidableEq

/-- Context seen by the children of an element with the given tag/classes. -/
def childCtx (ctx : WalkCtx) (tag : String) (classes : List String) : WalkCtx :=
  { inTerm := ctx.inTerm || classes.contains "tooltip-term"
    inPopover := ctx.inPopover || classes.contains "tooltip-popover"
    parentTag := tag
    inCode :=
      if classes.contains "tooltip-term" then false
      else if tag = "CODE" || tag = "PRE" then true
      else ctx.inCode }

/-- Embeds `TooltipManager.shouldProcessNode` for a text node with the given
ancestor context. -/
def shouldProcessText (ctx : WalkCtx) (s : List Char) : Bool :=
  s.any (fun c => !c.isWhitespace) && !ctx.inTerm && !ctx.inPopover &&
    !(ctx.parentTag = "SCRIPT" : Bool) && !(ctx.parentTag = "STYLE" : Bool)

/-- Embeds `TooltipManager.createTermNode`. -/
def createTermNode (m : Match) (inCode : Bool) : DNode :=
  DNode.elem "SPAN" ("tooltip-term" :: if inCode then ["tooltip-term--code"] else [])
    [DNode.text m.text]

/-- The fragment built in `processTextNode`: plain text slices between
matches, a marker per match, and the tail after the last match. -/
def buildFragments (s : List Char) (inCode : Bool) (lastIndex : Nat) :
    List Match → List DNode
  | [] => if lastIndex < s.length then [DNode.text (s.drop lastIndex)] else []
  | m :: rest =>
      (if lastIndex < m.start then
        [DNode.text ((s.drop lastIndex).take (m.start - lastIndex))]
      else []) ++
      createTermNode m inCode :: buildFragments s inCode m.end_ rest

/-- Embeds `TooltipManager.processTextNode`: a text node is replaced by this list of
nodes (a single unchanged text node when there is no match). -/
def processTextNode (defs : List TermDef) (inCode : Bool) (s : List Char) :
    List DNode :=
  let ms := findMatches defs s
  if ms.isEmpty then [DNode.text s] else buildFragments s inCode 0 ms

mutual

/-- Embeds `TooltipManager.decorate`, restricted to one node of the walked subtree:
a text node accepted by `shouldProcessNode` is replaced by its fragments,
elements keep their identity and recurse into their children. -/
def decorateNode (defs : List TermDef) (ctx : WalkCtx) : DNode → List DNode
  | DNode.text s =>
      if shouldProcessText ctx s then processTextNode defs ctx.inCode s
      else [DNode.text s]
  | DNode.elem tag classes children =>
      [DNode.elem tag classes (decorateList defs (childCtx ctx tag classes) children)]

def decorateList (defs : List TermDef) (ctx : WalkCtx) : List DNode → List DNode
  | [] => []
  | n :: rest => decorateNode defs ctx n ++ decorateList defs ctx rest

end

/-- Embeds `TooltipManager.decorate(root)`: the walker visits the descendants of the
root; the root element itself is never replaced. -/
def decorate (defs : List TermDef) (ctx : WalkCtx) : DNode → DNode
  | DNode.text s => DNode.text s
  | DNode.elem tag classes children =>
      DNode.elem tag classes (decorateList defs (childCtx ctx tag classes) children)

mutual

/-- Does the subtree contain a `tooltip-term` marker element? -/
def containsTermNode : DNode → Bool
  | DNode.text _ => false
  | DNode.elem _ classes children =>
      classes.contains "tooltip-term" || containsTermList children

def containsTermList : List DNode → Bool
  | [] => false
  | n :: rest => containsTermNode n || containsTermList rest

end

mutual

/-- No `tooltip-term` marker contains another marker in its subtree. -/
def noNestedNode : DNode → Bool
  | DNode.text _ => true
  | DNode.elem _ classes children =>
      if classes.contains "tooltip-term" then !containsTermList children
      else noNestedList children

def noNestedList : List DNode → Bool
  | [] => true
  | n :: rest => noNestedNode n && noNestedList rest

end

mutual

/-- The concatenated text content of a subtree (`textContent`). -/
def nodeText : DNode → List Char
  | DNode.text s => s
  | DNode.elem _ _ children => listText children

def listText : List DNode → List Char
  | [] => []
  | n :: rest => nodeText n ++ listText rest

end

/-! ### `DEFAULT_TOOLTIP_DEFINITIONS` and the definition map

For the id-lookup claims the definitions are embedded as data; each trigger
is carried as its regex source text (its matching semantics are irrelevant
to `definitionMap`). Braces, quotes and the apostrophe that occur in the
body HTML are written with string escapes. -/

structure TooltipDefinition where
  id : String
  triggers : List String
  title : String
  body : String
deriving Repr, DecidableEq

/-- The first `decltype` entry of `DEFAULT_TOOLTIP_DEFINITIONS`. -/
def decltypeDefFirst : TooltipDefinition :=
  { id := "decltype", triggers := ["\\bdecltype\\b"], title := "decltype"
    body := "<p>Deduce the type of an expression at compile time without evaluating it.</p><pre><code class=\"language-cpp\">int value = 42;\nauto lambda = [&value]() \x7b return value; \x7d;\ndecltype(lambda()) copy = value; // copy is int</code></pre>" }

/-- The later duplicate `decltype` entry of `DEFAULT_TOOLTIP_DEFINITIONS`. -/
def decltypeDefSecond : TooltipDefinition :=
  { id := "decltype", triggers := ["\\bdecltype\\b"], title := "decltype"
    body := "<p>Compile-time type deduction operator that returns the type of an expression without evaluating it.</p><pre><code class=\"language-cpp\">int x = 42;\ndecltype(x) y = 10; // y is int\n\nauto func() -> int \x7b return 5; \x7d\ndecltype(func()) z = 3; // z is int</code></pre>" }

def DEFAULT_TOOLTIP_DEFINITIONS : List TooltipDefinition :=
  [ decltypeDefFirst,
    { id := "std-move", triggers := ["std::move", "\\bmove\\b(?=\\s*\\()"], title := "std::move"
      body := "<p>Cast an object to an rvalue so move-aware APIs can transfer its resources.</p><pre><code class=\"language-cpp\">std::string source = \"abc\";\nstd::string dest = std::move(source); // source becomes empty</code></pre>" },
    { id := "std-forward", triggers := ["std::forward"], title := "std::forward"
      body := "<p>Preserve the value category of a forwarded template argument inside forwarding functions.</p><pre><code class=\"language-cpp\">template <typename T>\nvoid wrapper(T&& arg) \x7b\n    callee(std::forward<T>(arg));\n\x7d</code></pre>" },
    { id := "unique-ptr", triggers := ["std::unique_ptr", "\\bunique_ptr\\b"], title := "std::unique_ptr"
      body := "<p>Exclusive-owning smart pointer that deletes its resource when leaving scope.</p><pre><code class=\"language-cpp\">auto ptr = std::make_unique<int>(42);\nif (ptr) \x7b /* use *ptr */ \x7d</code></pre>" },
    { id := "shared-ptr", triggers := ["std::shared_ptr", "\\bshared_ptr\\b"], title := "std::shared_ptr"
      body := "<p>Reference-counted smart pointer that frees the resource when the last owner dies.</p><pre><code class=\"language-cpp\">auto shared = std::make_shared<std::vector<int>>(5, 1);\nauto copy = shared; // increments use-count</code></pre>" },
    { id := "weak-ptr", triggers := ["std::weak_ptr", "\\bweak_ptr\\b"], title := "std::weak_ptr"
      body := "<p>Non-owning weak reference that lets you observe a std::shared_ptr without extending its lifetime.</p><pre><code class=\"language-cpp\">std::weak_ptr<int> weak = shared;\nif (auto locked = weak.lock()) \x7b /* safe access */ \x7d</code></pre>" },
    { id := "make-unique", triggers := ["std::make_unique"], title := "std::make_unique"
      body := "<p>Factory helper that allocates an object and returns a std::unique_ptr with exception safety.</p><pre><code class=\"language-cpp\">auto logger = std::make_unique<Logger>(\"app.log\");</code></pre>" },
    { id := "make-shared", triggers := ["std::make_shared"], title := "std::make_shared"
      body := "<p>Allocate control block and object in one step, returning a std::shared_ptr.</p><pre><code class=\"language-cpp\">auto config = std::make_shared<Config>(\"prod.json\");</code></pre>" },
    { id := "enable-shared-from-this", triggers := ["std::enable_shared_from_this"], title := "std::enable_shared_from_this"
      body := "<p>Base class that lets an object create shared_ptr instances to itself safely.</p><pre><code class=\"language-cpp\">struct Session : std::enable_shared_from_this<Session> \x7b\n    void start() \x7b queue(shared_from_this()); \x7d\n\x7d;</code></pre>" },
    { id := "lock-guard", triggers := ["std::lock_guard"], title := "std::lock_guard"
      body := "<p>RAII wrapper that acquires a mutex in its constructor and releases it in the destructor.</p><pre><code class=\"language-cpp\">std::mutex m;\n\x7b\n    std::lock_guard<std::mutex> guard(m);\n    // protected section\n\x7d</code></pre>" },
    { id := "scoped-lock", triggers := ["std::scoped_lock"], title := "std::scoped_lock"
      body := "<p>RAII lock that can take multiple mutexes and avoids deadlock by locking them atomically.</p><pre><code class=\"language-cpp\">std::scoped_lock guard(mutexA, mutexB);</code></pre>" },
    { id := "unique-lock", triggers := ["std::unique_lock"], title := "std::unique_lock"
      body := "<p>Flexible mutex guard that supports deferred locking, try_lock, and manual unlock/lock.</p><pre><code class=\"language-cpp\">std::unique_lock<std::mutex> lock(m, std::defer_lock);\nif (lock.try_lock()) \x7b /* ... */ \x7d</code></pre>" },
    { id := "async", triggers := ["std::async"], title := "std::async"
      body := "<p>Launch a task asynchronously and get a std::future representing its eventual result.</p><pre><code class=\"language-cpp\">auto fut = std::async(std::launch::async, compute);\nauto value = fut.get();</code></pre>" },
    { id := "future", triggers := ["std::future"], title := "std::future"
      body := "<p>Read-only handle that retrieves the result of an asynchronous computation.</p><pre><code class=\"language-cpp\">std::future<int> fut = promise.get_future();\nint result = fut.get();</code></pre>" },
    { id := "promise", triggers := ["std::promise"], title := "std::promise"
      body := "<p>Producer side of a future; set a value or exception that a std::future will observe.</p><pre><code class=\"language-cpp\">std::promise<int> promise;\nauto fut = promise.get_future();\npromise.set_value(42);</code></pre>" },
    { id := "condition-variable", triggers := ["std::condition_variable"], title := "std::condition_variable"
      body := "<p>Synchronization primitive used to block threads until notified by another thread.</p><pre><code class=\"language-cpp\">std::condition_variable cv;\ncv.wait(lock, [&] \x7b return ready; \x7d);</code></pre>" },
    { id := "atomic", triggers := ["std::atomic"], title := "std::atomic"
      body := "<p>Lock-free (when possible) wrapper that provides atomic operations on the underlying type.</p><pre><code class=\"language-cpp\">std::atomic<int> counter\x7b0\x7d;\n++counter;</code></pre>" },
    { id := "optional", triggers := ["std::optional", "\\boptional\\b"], title := "std::optional"
      body := "<p>Type-safe wrapper that may or may not contain a value.</p><pre><code class=\"language-cpp\">std::optional<std::string> name;\nname = \"Ada\";\nif (name) \x7b use(*name); \x7d</code></pre>" },
    { id := "variant", triggers := ["std::variant", "\\bvariant\\b"], title := "std::variant"
      body := "<p>Type-safe union that can hold one of several alternative types at a time.</p><pre><code class=\"language-cpp\">std::variant<int, std::string> v = 42;\nv = std::string\x7b\"text\"\x7d;</code></pre>" },
    { id := "visit", triggers := ["std::visit", "\\bvisit\\b\\s*\\("], title := "std::visit"
      body := "<p>Apply a visitor callable to the active alternative stored inside a std::variant.</p><pre><code class=\"language-cpp\">std::visit([](const auto& value) \x7b std::cout << value; \x7d, v);</code></pre>" },
    { id := "tie", triggers := ["std::tie", "\\btie\\b\\s*\\("], title := "std::tie"
      body := "<p>Create a tuple of lvalue references, often used to unpack multiple return values.</p><pre><code class=\"language-cpp\">int x, y;\nstd::tie(x, y) = std::pair\x7b1, 2\x7d;</code></pre>" },
    { id := "emplace", triggers := ["\\bemplace_back\\b", "\\bemplace\\b"], title := "emplace*"
      body := "<p>Construct elements in-place inside a container, forwarding constructor arguments.</p><pre><code class=\"language-cpp\">std::vector<std::string> names;\nnames.emplace_back(\"Ada\", 3);</code></pre>" },
    decltypeDefSecond,
    { id := "raii", triggers := ["\\bRAII\\b"], title := "RAII"
      body := "<p>Resource Acquisition Is Initialization - programming idiom where resource management is tied to object lifetime.</p><pre><code class=\"language-cpp\">class FileWrapper \x7b\n    FILE* file;\npublic:\n    FileWrapper(const char* name) : file(fopen(name, \"r\")) \x7b\x7d\n    ~FileWrapper() \x7b if(file) fclose(file); \x7d\n\x7d;</code></pre>" },
    { id := "alignas", triggers := ["\\balignas\\b"], title := "alignas"
      body := "<p>Specifies the alignment requirement of a type or object, useful for SIMD operations and cache optimization.</p><pre><code class=\"language-cpp\">alignas(16) float data[4]; // 16-byte aligned for SIMD\nalignas(64) struct CacheAligned \x7b\n    int values[16];\n\x7d;</code></pre>" },
    { id := "constexpr", triggers := ["\\bconstexpr\\b"], title := "constexpr"
      body := "<p>Specifies that a function or variable can be evaluated at compile time.</p><pre><code class=\"language-cpp\">constexpr int factorial(int n) \x7b\n    return n <= 1 ? 1 : n * factorial(n - 1);\n\x7d\n\nconstexpr int result = factorial(5); // Computed at compile time</code></pre>" },
    { id := "noexcept", triggers := ["\\bnoexcept\\b"], title := "noexcept"
      body := "<p>Specifies that a function does not throw exceptions, enabling optimizations.</p><pre><code class=\"language-cpp\">void safe_function() noexcept \x7b\n    // Guaranteed not to throw\n\x7d\n\n// Conditional noexcept\ntemplate<typename T>\nvoid conditional(T&& t) noexcept(noexcept(t.process()));</code></pre>" },
    { id := "auto-keyword", triggers := ["\\bauto\\b(?!\\s*=)"], title := "auto"
      body := "<p>Automatic type deduction that lets the compiler determine the type of a variable from its initializer.</p><pre><code class=\"language-cpp\">auto x = 42;        // int\nauto y = 3.14;      // double\nauto z = \"hello\";   // const char*\nauto ptr = std::make_unique<int>(10);</code></pre>" },
    { id := "lambda", triggers := ["\\blambda\\b", "\\[\\s*[^\\]]*\\s*\\]"], title := "Lambda Expression"
      body := "<p>Anonymous function objects that can capture variables from their scope.</p><pre><code class=\"language-cpp\">auto lambda = [](int x) \x7b return x * 2; \x7d;\nint result = lambda(5); // 10\n\n// With capture\nint multiplier = 3;\nauto capture_lambda = [multiplier](int x) \x7b\n    return x * multiplier;\n\x7d;</code></pre>" },
    { id := "sfinae", triggers := ["\\bSFINAE\\b"], title := "SFINAE"
      body := "<p>Substitution Failure Is Not An Error - principle that allows template overload resolution to work properly.</p><pre><code class=\"language-cpp\">// If substitution fails for a template,\n// it\x27s not an error, just removes it from consideration\ntemplate<typename T>\nauto func(T t) -> decltype(t.size()) \x7b\n    return t.size(); // Only works if T has size() method\n\x7d</code></pre>" },
    { id := "enable-if", triggers := ["std::enable_if", "\\benable_if\\b"], title := "std::enable_if"
      body := "<p>SFINAE utility for conditionally enabling template instantiations based on type traits.</p><pre><code class=\"language-cpp\">template<typename T>\ntypename std::enable_if<std::is_integral<T>::value, T>::type\nprocess(T value) \x7b\n    return value * 2; // Only for integral types\n\x7d</code></pre>" },
    { id := "perfect-forwarding", triggers := ["perfect forwarding", "universal reference"], title := "Perfect Forwarding"
      body := "<p>Technique to preserve the value category (lvalue/rvalue) of arguments when forwarding them to another function.</p><pre><code class=\"language-cpp\">template<typename T>\nvoid wrapper(T&& arg) \x7b\n    // Forward arg preserving its value category\n    target_function(std::forward<T>(arg));\n\x7d</code></pre>" },
    { id := "move-semantics", triggers := ["move semantics"], title := "Move Semantics"
      body := "<p>C++11 feature that allows efficient transfer of resources from one object to another, avoiding unnecessary copies.</p><pre><code class=\"language-cpp\">std::string source = \"Hello\";\nstd::string dest = std::move(source);\n// source is now in valid but unspecified state\n// dest contains \"Hello\" without copying</code></pre>" },
    { id := "template-specialization", triggers := ["template specialization"], title := "Template Specialization"
      body := "<p>Mechanism to provide specific implementations of a template for particular types.</p><pre><code class=\"language-cpp\">template<typename T>\nstruct TypeName \x7b static constexpr const char* value = \"unknown\"; \x7d;\n\n// Specialization for int\ntemplate<>\nstruct TypeName<int> \x7b static constexpr const char* value = \"integer\"; \x7d;</code></pre>" } ]

/-- The `TooltipManager` constructor: `definitions.forEach(def =>
this.definitionMap.set(def.id, def))`. -/
def buildDefinitionMap (defs : List TooltipDefinition) :
    List (String × TooltipDefinition) :=
  defs.foldl (fun m d => mapSet m d.id d) []

/-- The last-registered definition carrying a given id, as a left fold over
the registration order. -/
def lastRegistered (defs : List TooltipDefinition) (k : String) :
    Option TooltipDefinition :=
  defs.foldl (fun acc d => if d.id = k then some d else acc) none

/-! ### `APP_CONFIG` (config.js) -/

structure TabConfig where
  id : String
  title : String
  description : String
deriving Repr, DecidableEq

structure ContentConfig where
  basePath : String
  fileExtension : String
  cacheTimeout : Nat
  retryAttempts : Nat
  retryDelay : Nat
deriving Repr, DecidableEq

structure AppConfig where
  tabs : List TabConfig
  content : ContentConfig
deriving Repr, DecidableEq

def APP_CONFIG : AppConfig :=
  { tabs :=
      [ ⟨"string", "std::string", "String manipulation and utilities"⟩,
        ⟨"stringstream", "std::stringstream", "String stream operations"⟩,
        ⟨"vector", "std::vector", "Dynamic arrays"⟩,
        ⟨"map", "std::map", "Ordered key-value pairs"⟩,
        ⟨"unordered_map", "std::unordered_map", "Hash-based key-value pairs"⟩,
        ⟨"set", "std::set", "Ordered unique elements"⟩,
        ⟨"unordered_set", "std::unordered_set", "Hash-based unique elements"⟩,
        ⟨"priority_queue", "std::priority_queue", "Heap-based priority queue"⟩,
        ⟨"list", "std::list", "Doubly-linked list"⟩,
        ⟨"queue", "std::queue", "FIFO queue"⟩,
        ⟨"stack", "std::stack", "LIFO stack"⟩,
        ⟨"deque", "std::deque", "Double-ended queue"⟩,
        ⟨"algorithms", "Algorithms", "STL algorithms and utilities"⟩,
        ⟨"smart_pointers", "Smart Pointers", "Memory management"⟩,
        ⟨"concurrency", "Concurrency", "Multithreading primitives"⟩,
        ⟨"coroutines", "Coroutines", "C++20 coroutines"⟩,
        ⟨"oop", "OOP Concepts", "Object-oriented programming"⟩,
        ⟨"custom_types", "Custom Types", "Using custom types in containers"⟩ ]
    content :=
      { basePath := "./content/"
        fileExtension := ".html"
        cacheTimeout := 5 * 60 * 1000
        retryAttempts := 3
        retryDelay := 1000 } }

/-! ### `ContentLoader` (content-loader.js)

The network is modelled as a function from the attempt index to the outcome
of that attempt: `success body` is a 2xx response with the given text,
`failure msg` is a network error or a non-2xx status, carrying the message
of the error thrown in `_fetchContent`. -/

inductive NetResult where
  | success (body : String)
  | failure (msg : String)
deriving Repr, DecidableEq

/-- Embeds `ContentLoader._getFallbackContent`. -/
def getFallbackContent (tabId : String) (errMessage : String) : String :=
  let tabTitle :=
    match APP_CONFIG.tabs.find? (fun tab => tab.id == tabId) with
    | some tab => tab.title
    | none => tabId
  "\n            <div class=\"content-error\">\n                <div class=\"text-center py-12\">\n                    <div class=\"text-6xl text-red-400 mb-4\">⚠️</div>\n                    <h2 class=\"text-2xl font-bold text-red-400 mb-4\">Content Unavailable</h2>\n                    <p class=\"text-gray-400 mb-6\">\n                        Sorry, we couldn\x27t load the content for <strong>"
    ++ tabTitle ++
    "</strong>.\n                    </p>\n                    <div class=\"text-sm text-gray-500 mb-6\">\n                        Error: "
    ++ errMessage ++
    "\n                    </div>\n                    <button\n                        onclick=\"window.contentLoader.loadContent(\x27"
    ++ tabId ++
    "\x27, false)\"\n                        class=\"bg-cyan-500 hover:bg-cyan-600 text-white px-6 py-2 rounded-lg transition-colors\"\n                    >\n                        Try Again\n                    </button>\n                </div>\n            </div>\n        "

/-- The `!content.trim()` check of `_fetchContent`: the body contains no
non-whitespace character, so its trim is the empty string. -/
def trimEmpty (s : String) : Bool := s.toList.all (fun c => c.isWhitespace)

/-- Embeds `ContentLoader._fetchContent`: attempt `i` of the network, with the
current per-key retry counter `retries`. Returns the resolved content (the
body or the fallback document), the number of network attempts made, and
the final value of the retry counter. An empty-trim body throws
`Empty content received` and is retried like any other failure. -/
def fetchContentAux (net : Nat → NetResult) (tabId : String) :
    Nat → Nat → Nat → String × Nat × Nat
  | fuel + 1, i, retries =>
      match net i with
      | NetResult.success body =>
          if trimEmpty body then
            if retries < APP_CONFIG.content.retryAttempts then
              let r := fetchContentAux net tabId fuel (i + 1) (retries + 1)
              (r.1, r.2.1 + 1, r.2.2)
            else (getFallbackContent tabId "Empty content received", 1, retries)
          else (body, 1, retries)
      | NetResult.failure msg =>
          if retries < APP_CONFIG.content.retryAttempts then
            let r := fetchContentAux net tabId fuel (i + 1) (retries + 1)
            (r.1, r.2.1 + 1, r.2.2)
          else (getFallbackContent tabId msg, 1, retries)
  | 0, i, retries =>
      match net i with
      | NetResult.success body =>
          if trimEmpty body then
            (getFallbackContent tabId "Empty content received", 1, retries)
          else (body, 1, retries)
      | NetResult.failure msg => (getFallbackContent tabId msg, 1, retries)

def fetchContent (net : Nat → NetResult) (tabId : String) (i retries : Nat) :
    String × Nat × Nat :=
  fetchContentAux net tabId (APP_CONFIG.content.retryAttempts + 1 - retries) i retries

structure CacheEntry where
  content : String
  timestamp : Nat
deriving Repr, DecidableEq

/-- The mutable fields of the `ContentLoader` singleton. `loadingPromises`
maps a key to the identity of its pending promise; `nextPromiseId` is model
bookkeeping giving each created load promise a distinct identity. -/
structure LoaderState where
  cache : List (String × CacheEntry)
  loadingPromises : List (String × Nat)
  retryCount : List (String × Nat)
  nextPromiseId : Nat
deriving Repr, DecidableEq

/-- The cache check at the top of `loadContent`: content is returned only
when an entry exists and `now - timestamp < cacheTimeout`; a stale entry is
ignored, not deleted. -/
def cacheGet (cache : List (String × CacheEntry)) (tabId : String) (now : Nat) :
    Option String :=
  match mapGet cache tabId with
  | some e =>
      if now - e.timestamp < APP_CONFIG.content.cacheTimeout then some e.content
      else none
  | none => none

/-- Outcome of the synchronous prefix of `loadContent`: a fresh cache hit, a
join of an already-pending promise, or a newly started fetch. -/
inductive LoadStart where
  | cached (content : String)
  | joined (promiseId : Nat)
  | started (st' : LoaderState) (promiseId : Nat)
deriving Repr

/-- The synchronous prefix of `ContentLoader.loadContent`: cache check,
in-flight check, then registration of a new load promise. -/
def loadContentStart (st : LoaderState) (now : Nat) (tabId : String)
    (useCache : Bool) : LoadStart :=
  match (if useCache then cacheGet st.cache tabId now else none) with
  | some content => LoadStart.cached content
  | none =>
      match mapGet st.loadingPromises tabId with
      | some pid => LoadStart.joined pid
      | none =>
          let pid := st.nextPromiseId
          LoadStart.started
            { st with
                loadingPromises := mapSet st.loadingPromises tabId pid
                nextPromiseId := pid + 1 } pid

/-- The completion of `loadContent` once the load promise resolves (it
always resolves, since `_fetchContent` returns the fallback instead of
rethrowing): the result is cached, the retry counter is reset, and the
pending promise is removed. -/
def loadContentFinish (st : LoaderState) (tabId : String) (content : String)
    (now : Nat) : LoaderState :=
  { st with
      cache := mapSet st.cache tabId ⟨content, now⟩
      retryCount := mapDelete st.retryCount tabId
      loadingPromises := mapDelete st.loadingPromises tabId }

/-- Big-step run of one `loadContent(tabId, useCache)` call with no
interleaving: returns the resolved content, the state after completion, and
the number of network attempts. `none` means the call joined another
caller's pending promise (its resolution belongs to that other call). -/
def loadContentRun (net : Nat → NetResult) (st : LoaderState) (now endNow : Nat)
    (tabId : String) (useCache : Bool) : Option (String × LoaderState × Nat) :=
  match loadContentStart st now tabId useCache with
  | LoadStart.cached content => some (content, st, 0)
  | LoadStart.joined _ => none
  | LoadStart.started st' _ =>
      let retries := (mapGet st.retryCount tabId).getD 0
      let r := fetchContent net tabId 0 retries
      some (r.1,
        loadContentFinish
          { st' with retryCount := mapSet st'.retryCount tabId r.2.2 }
          tabId r.1 endNow,
        r.2.1)

/-! ### `CPPGuideApp` (app.js): the controller's own `loadContent` -/

structure AppTab where
  id : String
  label : String
  file : String
deriving Repr, DecidableEq

def tabsConfig : List AppTab :=
  [ ⟨"string", "std::string", "string.html"⟩,
    ⟨"stringstream", "std::stringstream", "stringstream.html"⟩,
    ⟨"vector", "std::vector", "vector.html"⟩,
    ⟨"map", "std::map", "map.html"⟩,
    ⟨"unordered_map", "std::unordered_map", "unordered_map.html"⟩,
    ⟨"set", "std::set", "set.html"⟩,
    ⟨"unordered_set", "std::unordered_set", "unordered_set.html"⟩,
    ⟨"priority_queue", "std::priority_queue", "priority_queue.html"⟩,
    ⟨"list", "std::list", "list.html"⟩,
    ⟨"queue", "std::queue", "queue.html"⟩,
    ⟨"stack", "std::stack", "stack.html"⟩,
    ⟨"deque", "std::deque", "deque.html"⟩,
    ⟨"algorithms", "Algorithms", "algorithms.html"⟩,
    ⟨"smart_pointers", "Smart Pointers", "smart_pointers.html"⟩,
    ⟨"concurrency", "Concurrency", "concurrency.html"⟩,
    ⟨"coroutines", "Coroutines", "coroutines.html"⟩,
    ⟨"oop", "OOP Concepts", "oop.html"⟩,
    ⟨"custom_types", "Custom Types", "custom_types.html"⟩ ]

inductive AppLoadResult where
  | fromCache (content : String)
  | fetched (content : String) (cache' : List (String × String))
  | errorThrown (msg : String)
deriving Repr, DecidableEq

/-- Embeds `CPPGuideApp.loadContent`: cache check, then validation of the key
against `tabsConfig` — an unknown key throws immediately — then a single
fetch with no retry. Returns the outcome and the number of network calls. -/
def appLoadContent (contentCache : List (String × String)) (tabId : String)
    (response : NetResult) : AppLoadResult × Nat :=
  match mapGet contentCache tabId with
  | some content => (AppLoadResult.fromCache content, 0)
  | none =>
      match tabsConfig.find? (fun tab => tab.id == tabId) with
      | none =>
          (AppLoadResult.errorThrown ("Tab configuration not found for: " ++ tabId), 0)
      | some _ =>
          match response with
          | NetResult.failure msg => (AppLoadResult.errorThrown msg, 1)
          | NetResult.success content =>
              (AppLoadResult.fetched content (mapSet contentCache tabId content), 1)

/-! ## Helper lemmas about the `Map` model -/

theorem mapGet_mapSet {α : Type} (m : List (String × α)) (k k' : String) (v : α) :
    mapGet (mapSet m k v) k' = if k = k' then some v else mapGet m k' := by
  induction m with
  | nil =>
      by_cases h : k = k' <;> simp [mapSet, mapGet, h]
  | cons p rest ih =>
      obtain ⟨pk, pv⟩ := p
      by_cases h : pk = k
      · subst h
        by_cases h2 : pk = k' <;> simp [mapSet, mapGet, h2]
      · by_cases h2 : pk = k'
        · subst h2
          have hk : ¬ k = pk := fun hh => h hh.symm
          simp [mapSet, mapGet, h, hk]
        · simp [mapSet, mapGet, h, h2, ih]

theorem mapGet_mapSet_self {α : Type} (m : List (String × α)) (k : String) (v : α) :
    mapGet (mapSet m k v) k = some v := by
  simp [mapGet_mapSet]

theorem mapGet_buildMap_fold (defs : List TooltipDefinition) :
    ∀ (m : List (String × TooltipDefinition)) (k : String),
      mapGet (defs.foldl (fun m d => mapSet m d.id d) m) k =
        defs.foldl (fun acc d => if d.id = k then some d else acc) (mapGet m k) := by
  induction defs with
  | nil => intro m k; rfl
  | cons d rest ih =>
      intro m k
      simp only [List.foldl]
      rw [ih, mapGet_mapSet]

/-- C2 (counterexample): the default definition list registers two
definitions with id `decltype`; the id lookup used by `showTooltip`
(`definitionMap.get`) returns the later-registered entry, not the
first-registered one, so the claim that the first-registered definition is
retrievable and the later one shadowed is false on this concrete input. -/
theorem decltype_lookup_returns_later_entry :
    DEFAULT_TOOLTIP_DEFINITIONS.find? (fun d => d.id == "decltype") = some decltypeDefFirst ∧
    mapGet (buildDefinitionMap DEFAULT_TOOLTIP_DEFINITIONS) "decltype" = some decltypeDefSecond ∧
    decltypeDefFirst ≠ decltypeDefSecond := by
  refine ⟨by decide, by decide, by decide⟩

/-- C2 (amended): duplicate definition ids are permitted by construction
order, but id lookup on `definitionMap` retrieves the last-registered
definition with that id (each `Map.set` overwrites the earlier binding);
the earlier one is shadowed. In particular, the duplicate `decltype` id of
the default list resolves to the later entry. -/
theorem definitionMap_lookup_last_registered :
    (∀ (defs : List TooltipDefinition) (k : String),
      mapGet (buildDefinitionMap defs) k = lastRegistered defs k) ∧
    mapGet (buildDefinitionMap DEFAULT_TOOLTIP_DEFINITIONS) "decltype" =
      some decltypeDefSecond := by
  constructor
  · intro defs k
    have h := mapGet_buildMap_fold defs [] k
    simpa [buildDefinitionMap, lastRegistered, mapGet] using h
  · decide

/-! ## Helper lemmas about the matcher -/

theorem sweep_subset (l : List Match) :
    ∀ (c : Int), ∀ m ∈ sweepMatches c l, m ∈ l := by
  induction l with
  | nil => intro c m hm; simp [sweepMatches] at hm
  | cons x xs ih =>
      intro c m hm
      by_cases h : c ≤ (x.start : Int)
      · simp only [sweepMatches, if_pos h] at hm
        rcases List.mem_cons.mp hm with rfl | hm
        · exact List.mem_cons_self m xs
        · exact List.mem_cons_of_mem x (ih _ m hm)
      · simp only [sweepMatches, if_neg h] at hm
        exact List.mem_cons_of_mem x (ih _ m hm)

theorem sweep_start_ge (l : List Match) (hl : ∀ x ∈ l, x.start ≤ x.end_) :
    ∀ (c : Int), ∀ m ∈ sweepMatches c l, c ≤ (m.start : Int) := by
  induction l with
  | nil => intro c m hm; simp [sweepMatches] at hm
  | cons x xs ih =>
      intro c m hm
      have hxs : ∀ y ∈ xs, y.start ≤ y.end_ := fun y hy => hl y (List.mem_cons_of_mem x hy)
      by_cases h : c ≤ (x.start : Int)
      · simp only [sweepMatches, if_pos h] at hm
        rcases List.mem_cons.mp hm with rfl | hm
        · exact h
        · have hx : (x.start : Int) ≤ (x.end_ : Int) := by
            exact_mod_cast hl x (List.mem_cons_self x xs)
          have := ih hxs (x.end_ : Int) m hm
          omega
      · simp only [sweepMatches, if_neg h] at hm
        exact ih hxs c m hm

theorem sweep_pairwise (l : List Match) (hl : ∀ x ∈ l, x.start ≤ x.end_) :
    ∀ (c : Int), (sweepMatches c l).Pairwise (fun a b => a.end_ ≤ b.start) := by
  induction l with
  | nil => intro c; simp [sweepMatches]
  | cons x xs ih =>
      intro c
      have hxs : ∀ y ∈ xs, y.start ≤ y.end_ := fun y hy => hl y (List.mem_cons_of_mem x hy)
      by_cases h : c ≤ (x.start : Int)
      · simp only [sweepMatches, if_pos h]
        refine List.Pairwise.cons ?_ (ih hxs _)
        intro b hb
        have := sweep_start_ge xs hxs (x.end_ : Int) b hb
        exact_mod_cast this
      · simp only [sweepMatches, if_neg h]
        exact ih hxs c

theorem rawMatches_shape (defs : List TermDef) (t : List Char) :
    ∀ m ∈ rawMatches defs t,
      m.end_ = m.start + m.length ∧ m.text = (t.drop m.start).take m.length := by
  intro m hm
  simp only [rawMatches, List.mem_flatMap, List.mem_map] at hm
  obtain ⟨d, _, p, _, jn, _, rfl⟩ := hm
  exact ⟨rfl, rfl⟩

instance matchLE_total : IsTotal Match (fun a b => matchLE a b = true) := by
  constructor
  intro a b
  unfold matchLE
  by_cases h : a.start = b.start
  · rcases Nat.le_total a.length b.length with hlen | hlen
    · right; simp [h, hlen]
    · left; simp [h, hlen]
  · rcases Nat.lt_or_ge a.start b.start with hst | hst
    · left; simp [h, hst]
    · have hne : ¬ b.start = a.start := fun hh => h hh.symm
      have : b.start < a.start := lt_of_le_of_ne hst (fun hh => h hh.symm)
      right; simp [hne, this]

instance matchLE_trans : IsTrans Match (fun a b => matchLE a b = true) := by
  constructor
  intro a b c hab hbc
  simp only [matchLE] at hab hbc ⊢
  split_ifs at hab hbc ⊢ with h1 h2 h3 <;>
    simp only [decide_eq_true_eq] at hab hbc ⊢ <;> omega

/-- Every match kept by `findMatches` is one of the raw matches. -/
theorem findMatches_subset_raw (defs : List TermDef) (t : List Char) :
    ∀ m ∈ findMatches defs t, m ∈ rawMatches defs t := by
  intro m hm
  unfold findMatches at hm
  by_cases he : (rawMatches defs t).isEmpty
  · simp [he] at hm
    exact hm
  · simp only [he, if_neg, Bool.false_eq_true, not_false_eq_true] at hm
    have h1 := sweep_subset _ _ m hm
    exact (List.perm_insertionSort (fun a b => matchLE a b = true) (rawMatches defs t)).mem_iff.mp h1

/-- The kept matches are chained: each ends no later than the next starts. -/
theorem findMatches_chain (defs : List TermDef) (t : List Char) :
    (findMatches defs t).Pairwise (fun a b => a.end_ ≤ b.start) := by
  unfold findMatches
  by_cases he : (rawMatches defs t).isEmpty
  · simp [he]
    rw [List.isEmpty_iff.mp he]
    exact List.Pairwise.nil
  · simp only [he, Bool.false_eq_true, if_false]
    apply sweep_pairwise
    intro x hx
    have hx' :=
      (List.perm_insertionSort (fun a b => matchLE a b = true) (rawMatches defs t)).mem_iff.mp hx
    have := (rawMatches_shape defs t x hx').1
    omega

/-- C4: for every input text and every definition list, the matches returned
by `findMatches` are mutually non-overlapping (no two matches `m1`, `m2`
with `m1.start < m2.end` and `m2.start < m1.end`) and sorted in ascending
order of start offset. -/
theorem findMatches_nonoverlapping_sorted (defs : List TermDef) (t : List Char) :
    (findMatches defs t).Pairwise
      (fun m1 m2 => ¬(m1.start < m2.end_ ∧ m2.start < m1.end_)) ∧
    (findMatches defs t).Pairwise (fun m1 m2 => m1.start ≤ m2.start) := by
  have hchain := findMatches_chain defs t
  have hshape : ∀ m ∈ findMatches defs t, m.end_ = m.start + m.length :=
    fun m hm => (rawMatches_shape defs t m (findMatches_subset_raw defs t m hm)).1
  constructor
  · exact hchain.imp (fun h hc => absurd hc.2 (Nat.not_lt.mpr h))
  · refine hchain.imp_of_mem ?_
    intro a b ha _ hr
    have := hshape a ha
    omega

/-- Among the sorted raw matches, the sweep never keeps a match when another
raw match at the same start is longer. -/
theorem sweep_keeps_longest_at_start (l : List Match)
    (hsort : l.Pairwise (fun a b => matchLE a b = true))
    (hl : ∀ x ∈ l, x.end_ = x.start + x.length) :
    ∀ (c : Int), ∀ m ∈ sweepMatches c l, ∀ y ∈ l, y.start = m.start →
      y.length ≤ m.length := by
  induction l with
  | nil => intro c m hm; simp [sweepMatches] at hm
  | cons x xs ih =>
      intro c m hm y hy hstart
      obtain ⟨hx_rel, hxs_sort⟩ := List.pairwise_cons.mp hsort
      have hxs_sh : ∀ z ∈ xs, z.end_ = z.start + z.length :=
        fun z hz => hl z (List.mem_cons_of_mem x hz)
      have hxs_le : ∀ z ∈ xs, z.start ≤ z.end_ := fun z hz => by
        have := hxs_sh z hz; omega
      by_cases h : c ≤ (x.start : Int)
      · simp only [sweepMatches, if_pos h] at hm
        rcases List.mem_cons.mp hm with rfl | hm
        · rcases List.mem_cons.mp hy with rfl | hy
          · exact Nat.le_refl _
          · have hr := hx_rel y hy
            unfold matchLE at hr
            have hc : m.start = y.start := hstart.symm
            simp [hc] at hr
            exact hr
        · have hm_ge := sweep_start_ge xs hxs_le (x.end_ : Int) m hm
          rcases List.mem_cons.mp hy with rfl | hy
          · have hxe := hl y (List.mem_cons_self y xs)
            omega
          · exact ih hxs_sort hxs_sh _ m hm y hy hstart
      · simp only [sweepMatches, if_neg h] at hm
        rcases List.mem_cons.mp hy with rfl | hy
        · have hm_ge := sweep_start_ge xs hxs_le c m hm
          omega
        · exact ih hxs_sort hxs_sh _ m hm y hy hstart

/-- Two members of a pairwise-related list are equal or related one way. -/
theorem pairwise_two_mem {R : Match → Match → Prop} :
    ∀ {l : List Match}, l.Pairwise R → ∀ {a b : Match}, a ∈ l → b ∈ l →
      a = b ∨ R a b ∨ R b a := by
  intro l hp
  induction hp with
  | nil => intro a b ha _; simp at ha
  | cons hhead _ ih =>
      intro a b ha hb
      rcases List.mem_cons.mp ha with h1 | h1
      · rcases List.mem_cons.mp hb with h2 | h2
        · exact Or.inl (h1.trans h2.symm)
        · exact Or.inr (Or.inl (by rw [h1]; exact hhead b h2))
      · rcases List.mem_cons.mp hb with h2 | h2
        · exact Or.inr (Or.inr (by rw [h2]; exact hhead a h1))
        · exact ih h1 h2

/-- C5: `findMatches` resolves overlapping raw matches in favour of the
earlier-starting match, and among matches with equal start in favour of the
longer one; in particular on the text `std::move(source)`, where the
`std::move` trigger and the `move` trigger of the `std-move` definition
match overlapping spans, only the longer `std::move` match is returned. -/
theorem findMatches_overlap_resolution :
    (∀ (defs : List TermDef) (t : List Char) (m1 m2 : Match),
        m1 ∈ findMatches defs t → m2 ∈ rawMatches defs t →
        m2.start = m1.start → m2.length ≤ m1.length) ∧
    (∀ (defs : List TermDef) (t : List Char) (m1 m2 : Match),
        m1 ∈ findMatches defs t → m2 ∈ findMatches defs t →
        m1.start < m2.start → m2.start < m1.end_ → False) ∧
    ((findMatches [stdMoveDef] sampleMoveText).map
        (fun m => (m.start, m.length, m.definitionId)) = [(0, 9, "std-move")] ∧
      (rawMatches [stdMoveDef] sampleMoveText).map (fun m => (m.start, m.length)) =
        [(0, 9), (5, 4)]) := by
  refine ⟨?_, ?_, by decide, by decide⟩
  · intro defs t m1 m2 hm1 hm2 hstart
    unfold findMatches at hm1
    by_cases he : (rawMatches defs t).isEmpty
    · simp [he] at hm1
      rw [List.isEmpty_iff.mp he] at hm1
      simp at hm1
    · simp only [he, Bool.false_eq_true, if_false] at hm1
      have hperm := List.perm_insertionSort (fun a b => matchLE a b = true) (rawMatches defs t)
      refine sweep_keeps_longest_at_start _ ?_ ?_ _ m1 hm1 m2 (hperm.mem_iff.mpr hm2) hstart
      · exact List.sorted_insertionSort (fun a b => matchLE a b = true) (rawMatches defs t)
      · intro z hz
        exact (rawMatches_shape defs t z (hperm.mem_iff.mp hz)).1
  · intro defs t m1 m2 hm1 hm2 hlt hov
    have hchain := findMatches_chain defs t
    have h2sh := (rawMatches_shape defs t m2 (findMatches_subset_raw defs t m2 hm2)).1
    rcases pairwise_two_mem hchain hm1 hm2 with heq | hr | hr
    · rw [heq] at hlt; omega
    · omega
    · omega

/-- A hypothetical extra definition whose literal trigger `std` shares its
start offset with the `std::move` trigger, used to instantiate the
equal-start clause on a concrete input. -/
def stdLitDef : TermDef :=
  { id := "std-lit", triggers := [Pattern.lit "std".toList] }

/-- Witness for C5: on the scenario text, the raw `std` match at start 0 is
no longer than the kept `std::move` match at start 0. -/
theorem findMatches_overlap_resolution_witness :
    ({ start := 0, end_ := 3, length := 3, text := "std".toList,
       definitionId := "std-lit" } : Match).length ≤
      ({ start := 0, end_ := 9, length := 9, text := "std::move".toList,
         definitionId := "std-move" } : Match).length :=
  findMatches_overlap_resolution.1 [stdMoveDef, stdLitDef] sampleMoveText _ _
    (by decide) (by decide) (by decide)

/-! ## Well-formedness of matches and text rebuilding (claim C10) -/

/-- A pattern is valid when every match it reports is non-empty and lies
inside the text; every real regex that cannot match the empty string
satisfies this. -/
def ValidPattern (p : Pattern) : Prop :=
  ∀ (t : List Char) (i n : Nat), p.matchLen t i = some n → 0 < n ∧ i + n ≤ t.length

theorem validPattern_lit (s : List Char) (hs : s ≠ []) : ValidPattern (Pattern.lit s) := by
  intro t i n h
  simp only [Pattern.lit] at h
  by_cases hc : (t.drop i).take s.length = s
  · rw [if_pos hc] at h
    cases h
    have hlen : ((t.drop i).take s.length).length = s.length := by rw [hc]
    rw [List.length_take, List.length_drop] at hlen
    have hpos : 0 < s.length := List.length_pos.mpr hs
    exact ⟨hpos, by omega⟩
  · rw [if_neg hc] at h
    cases h

theorem validPattern_moveTrigger : ValidPattern moveTrigger := by
  intro t i n h
  simp only [moveTrigger] at h
  by_cases hc : (t.drop i).take 4 = "move".toList ∧ prevNonWord t i = true ∧
      nextNonWord t (i + 4) = true ∧ wsThenParen (t.drop (i + 4)) = true
  · rw [if_pos hc] at h
    cases h
    have hlen : ((t.drop i).take 4).length = ("move".toList).length := by rw [hc.1]
    rw [List.length_take, List.length_drop] at hlen
    simp only [String.toList] at hlen
    refine ⟨by omega, by simp at hlen; omega⟩
  · rw [if_neg hc] at h
    cases h

theorem findFromAux_sound (p : Pattern) (t : List Char) :
    ∀ (fuel i j n : Nat), findFromAux p t fuel i = some (j, n) →
      p.matchLen t j = some n ∧ i ≤ j := by
  intro fuel
  induction fuel with
  | zero => intro i j n h; simp [findFromAux] at h
  | succ f ih =>
      intro i j n h
      cases hm : p.matchLen t i with
      | some m =>
          simp only [findFromAux, hm] at h
          cases h
          exact ⟨hm, Nat.le_refl _⟩
      | none =>
          simp only [findFromAux, hm] at h
          obtain ⟨h1, h2⟩ := ih (i + 1) j n h
          exact ⟨h1, by omega⟩

theorem scanFrom_sound (p : Pattern) (t : List Char) :
    ∀ (fuel i j n : Nat), (j, n) ∈ scanFrom p t i fuel →
      p.matchLen t j = some n := by
  intro fuel
  induction fuel with
  | zero => intro i j n h; simp [scanFrom] at h
  | succ f ih =>
      intro i j n h
      simp only [scanFrom] at h
      rcases hf : findFrom p t i with _ | ⟨a, b⟩
      · rw [hf] at h; simp at h
      · rw [hf] at h
        rcases List.mem_cons.mp h with heq | h
        · injection heq with h1 h2
          subst h1
          subst h2
          exact (findFromAux_sound p t (t.length + 1 - i) i j n hf).1
        · exact ih (a + b) j n h

theorem rawMatches_valid (defs : List TermDef) (t : List Char)
    (hv : ∀ d ∈ defs, ∀ p ∈ d.triggers, ValidPattern p) :
    ∀ m ∈ rawMatches defs t, 0 < m.length ∧ m.start + m.length ≤ t.length := by
  intro m hm
  simp only [rawMatches, List.mem_flatMap, List.mem_map] at hm
  obtain ⟨d, hd, p, hp, ⟨j, n⟩, hjn, rfl⟩ := hm
  have hml := scanFrom_sound p t _ _ _ _ hjn
  exact hv d hd p hp t j n hml

theorem listText_append (l1 l2 : List DNode) :
    listText (l1 ++ l2) = listText l1 ++ listText l2 := by
  induction l1 with
  | nil => simp [listText]
  | cons n rest ih => simp [listText, ih]

theorem drop_take_concat (s : List Char) (li a n : Nat) (h : li ≤ a) :
    (if li < a then (s.drop li).take (a - li) else []) ++
      ((s.drop a).take n ++ s.drop (a + n)) = s.drop li := by
  by_cases hlt : li < a
  · rw [if_pos hlt]
    have h1 : s.drop a = (s.drop li).drop (a - li) := by
      rw [List.drop_drop]; congr 1; omega
    have h2 : s.drop (a + n) = ((s.drop li).drop (a - li)).drop n := by
      rw [List.drop_drop, List.drop_drop]; congr 1; omega
    rw [h1, h2, List.take_append_drop, List.take_append_drop]
  · have heq : li = a := by omega
    subst heq
    rw [if_neg hlt, List.nil_append]
    have h2 : s.drop (li + n) = (s.drop li).drop n := by
      rw [List.drop_drop]
    rw [h2, List.take_append_drop]

theorem listText_buildFragments (s : List Char) (b : Bool) :
    ∀ (ms : List Match) (li : Nat),
      (∀ m ∈ ms, m.end_ = m.start + m.length ∧
        m.text = (s.drop m.start).take m.length) →
      ms.Pairwise (fun a b => a.end_ ≤ b.start) →
      (∀ m ∈ ms, li ≤ m.start) →
      listText (buildFragments s b li ms) = s.drop li := by
  intro ms
  induction ms with
  | nil =>
      intro li _ _ _
      by_cases h : li < s.length
      · simp [buildFragments, h, listText, nodeText]
      · have hnil : s.drop li = [] := List.drop_eq_nil_iff.mpr (by omega)
        simp [buildFragments, h, listText, hnil]
  | cons m rest ih =>
      intro li hshape hpair hge
      obtain ⟨hrel, hpair'⟩ := List.pairwise_cons.mp hpair
      have hmsh := hshape m (List.mem_cons_self m rest)
      have hrec := ih m.end_
        (fun y hy => hshape y (List.mem_cons_of_mem m hy)) hpair'
        (fun y hy => hrel y hy)
      simp only [buildFragments]
      rw [listText_append]
      have hmark : listText (createTermNode m b :: buildFragments s b m.end_ rest) =
          m.text ++ listText (buildFragments s b m.end_ rest) := by
        simp [listText, nodeText, createTermNode]
      rw [hmark, hrec, hmsh.2, hmsh.1]
      have hif : listText
          (if li < m.start then [DNode.text ((s.drop li).take (m.start - li))] else []) =
          (if li < m.start then (s.drop li).take (m.start - li) else []) := by
        by_cases hlt : li < m.start <;> simp [hlt, listText, nodeText]
      rw [hif]
      exact drop_take_concat s li m.start m.length (hge m (List.mem_cons_self m rest))

/-- C10: when no trigger pattern can match the empty string, every match
returned by `findMatches` is well-formed (`end = start + length`,
`end > start`, recorded text = the input slice `[start, end)`), and
`processTextNode` rebuilds the original text exactly from the plain
fragments and marker texts. -/
theorem findMatches_wellformed_rebuild (defs : List TermDef) (t : List Char)
    (hv : ∀ d ∈ defs, ∀ p ∈ d.triggers, ValidPattern p) :
    (∀ m ∈ findMatches defs t,
        m.end_ = m.start + m.length ∧ m.start < m.end_ ∧
        m.text = (t.drop m.start).take m.length) ∧
    (∀ b, listText (processTextNode defs b t) = t) := by
  have hsub := findMatches_subset_raw defs t
  have hsh := rawMatches_shape defs t
  have hvl := rawMatches_valid defs t hv
  constructor
  · intro m hm
    have h1 := hsh m (hsub m hm)
    have h2 := hvl m (hsub m hm)
    exact ⟨h1.1, by omega, h1.2⟩
  · intro b
    simp only [processTextNode]
    by_cases he : (findMatches defs t).isEmpty
    · simp [he, listText, nodeText]
    · simp only [he, Bool.false_eq_true, if_false]
      have hb := listText_buildFragments t b (findMatches defs t) 0
        (fun m hm => hsh m (hsub m hm))
        (findMatches_chain defs t)
        (fun m _ => Nat.zero_le _)
      simpa using hb

/-- Witness for C10: the rebuild property instantiated on the `std-move`
definition and the scenario text. -/
theorem findMatches_wellformed_rebuild_witness :
    listText (processTextNode [stdMoveDef] false sampleMoveText) = sampleMoveText :=
  (findMatches_wellformed_rebuild [stdMoveDef] sampleMoveText
    (by
      intro d hd p hp
      rw [List.mem_singleton] at hd
      subst hd
      simp only [stdMoveDef] at hp
      rcases List.mem_cons.mp hp with rfl | hp
      · exact validPattern_lit _ (by decide)
      · rcases List.mem_cons.mp hp with rfl | hp
        · exact validPattern_moveTrigger
        · simp at hp)).2 false

/-! ## Decoration lemmas (claim C9) -/

mutual

theorem decorateNode_inTerm (defs : List TermDef) (ctx : WalkCtx)
    (h : ctx.inTerm = true) : (n : DNode) → decorateNode defs ctx n = [n]
  | DNode.text s => by
      simp [decorateNode, shouldProcessText, h]
  | DNode.elem tag cls ch => by
      have hid := decorateList_inTerm defs (childCtx ctx tag cls)
        (by simp [childCtx, h]) ch
      simp [decorateNode, hid]

theorem decorateList_inTerm (defs : List TermDef) (ctx : WalkCtx)
    (h : ctx.inTerm = true) : (l : List DNode) → decorateList defs ctx l = l
  | [] => by simp [decorateList]
  | n :: rest => by
      have h1 := decorateNode_inTerm defs ctx h n
      have h2 := decorateList_inTerm defs ctx h rest
      simp [decorateList, h1, h2]

end

mutual

theorem decorateNode_inPopover (defs : List TermDef) (ctx : WalkCtx)
    (h : ctx.inPopover = true) : (n : DNode) → decorateNode defs ctx n = [n]
  | DNode.text s => by
      simp [decorateNode, shouldProcessText, h]
  | DNode.elem tag cls ch => by
      have hid := decorateList_inPopover defs (childCtx ctx tag cls)
        (by simp [childCtx, h]) ch
      simp [decorateNode, hid]

theorem decorateList_inPopover (defs : List TermDef) (ctx : WalkCtx)
    (h : ctx.inPopover = true) : (l : List DNode) → decorateList defs ctx l = l
  | [] => by simp [decorateList]
  | n :: rest => by
      have h1 := decorateNode_inPopover defs ctx h n
      have h2 := decorateList_inPopover defs ctx h rest
      simp [decorateList, h1, h2]

end

theorem noNestedList_append (l1 l2 : List DNode) :
    noNestedList (l1 ++ l2) = (noNestedList l1 && noNestedList l2) := by
  induction l1 with
  | nil => simp [noNestedList]
  | cons n rest ih => simp [noNestedList, ih, Bool.and_assoc]

theorem noNested_createTermNode (m : Match) (b : Bool) :
    noNestedNode (createTermNode m b) = true := by
  simp [createTermNode, noNestedNode, containsTermList, containsTermNode]

theorem noNested_buildFragments (s : List Char) (b : Bool) :
    ∀ (ms : List Match) (li : Nat), noNestedList (buildFragments s b li ms) = true := by
  intro ms
  induction ms with
  | nil =>
      intro li
      by_cases h : li < s.length <;> simp [buildFragments, h, noNestedList, noNestedNode]
  | cons m rest ih =>
      intro li
      simp only [buildFragments, noNestedList_append, noNestedList]
      by_cases h : li < m.start <;>
        simp [h, noNestedList, noNestedNode, createTermNode, containsTermList,
          containsTermNode, ih m.end_]

theorem noNested_processTextNode (defs : List TermDef) (b : Bool) (s : List Char) :
    noNestedList (processTextNode defs b s) = true := by
  simp only [processTextNode]
  by_cases he : (findMatches defs s).isEmpty
  · simp [he, noNestedList, noNestedNode]
  · simp [he, noNested_buildFragments]

mutual

theorem noNested_decorateNode (defs : List TermDef) (ctx : WalkCtx) :
    (n : DNode) → noNestedNode n = true →
      noNestedList (decorateNode defs ctx n) = true
  | DNode.text s, _ => by
      by_cases hp : shouldProcessText ctx s = true
      · simp [decorateNode, hp, noNested_processTextNode]
      · simp [decorateNode, hp, noNestedList, noNestedNode]
  | DNode.elem tag cls ch, h => by
      by_cases ht : cls.contains "tooltip-term" = true
      · have htm : "tooltip-term" ∈ cls := by simpa using ht
        have hid := decorateList_inTerm defs (childCtx ctx tag cls)
          (by simp [childCtx, htm]) ch
        simp only [decorateNode, hid]
        simpa [noNestedList, noNestedNode, htm] using h
      · have htm : ¬ "tooltip-term" ∈ cls := by simpa using ht
        have hch : noNestedList ch = true := by
          simpa [noNestedNode, htm] using h
        have hrec := noNested_decorateList defs (childCtx ctx tag cls) ch hch
        simp [decorateNode, noNestedList, noNestedNode, htm, hrec]

theorem noNested_decorateList (defs : List TermDef) (ctx : WalkCtx) :
    (l : List DNode) → noNestedList l = true →
      noNestedList (decorateList defs ctx l) = true
  | [], _ => by simp [decorateList, noNestedList]
  | n :: rest, h => by
      have hn : noNestedNode n = true := by
        have := h
        simp [noNestedList, Bool.and_eq_true] at this
        exact this.1
      have hr : noNestedList rest = true := by
        have := h
        simp [noNestedList, Bool.and_eq_true] at this
        exact this.2
      have h1 := noNested_decorateNode defs ctx n hn
      have h2 := noNested_decorateList defs ctx rest hr
      simp [decorateList, noNestedList_append, h1, h2]

end

theorem noNested_decorate (defs : List TermDef) (ctx : WalkCtx) (root : DNode)
    (h : noNestedNode root = true) :
    noNestedNode (decorate defs ctx root) = true := by
  cases root with
  | text s => simpa [decorate] using h
  | elem tag cls ch =>
      by_cases ht : cls.contains "tooltip-term" = true
      · have htm : "tooltip-term" ∈ cls := by simpa using ht
        have hid := decorateList_inTerm defs (childCtx ctx tag cls)
          (by simp [childCtx, htm]) ch
        simpa [decorate, hid] using h
      · have htm : ¬ "tooltip-term" ∈ cls := by simpa using ht
        have hch : noNestedList ch = true := by
          simpa [noNestedNode, htm] using h
        have hrec := noNested_decorateList defs (childCtx ctx tag cls) ch hch
        simp [decorate, noNestedNode, htm, hrec]

/-- C9: decoration never wraps text that lies inside a previously created
marker (`tooltip-term`) or inside the popover element (`tooltip-popover`) —
such subtrees are returned untouched — so a second `decorate` run over an
already-decorated tree produces no nested markers. -/
theorem decorate_idempotent_no_nesting :
    (∀ (defs : List TermDef) (ctx : WalkCtx) (tag : String) (classes : List String)
        (children : List DNode), classes.contains "tooltip-term" = true →
        decorateNode defs ctx (DNode.elem tag classes children) =
          [DNode.elem tag classes children]) ∧
    (∀ (defs : List TermDef) (ctx : WalkCtx) (tag : String) (classes : List String)
        (children : List DNode), classes.contains "tooltip-popover" = true →
        decorateNode defs ctx (DNode.elem tag classes children) =
          [DNode.elem tag classes children]) ∧
    (∀ (defs : List TermDef) (ctx : WalkCtx) (root : DNode),
        noNestedNode root = true →
        noNestedNode (decorate defs ctx (decorate defs ctx root)) = true) := by
  refine ⟨?_, ?_, ?_⟩
  · intro defs ctx tag classes children ht
    have htm : "tooltip-term" ∈ classes := by simpa using ht
    have hid := decorateList_inTerm defs (childCtx ctx tag classes)
      (by simp [childCtx, htm]) children
    simp [decorateNode, hid]
  · intro defs ctx tag classes children ht
    have htm : "tooltip-popover" ∈ classes := by simpa using ht
    have hid := decorateList_inPopover defs (childCtx ctx tag classes)
      (by simp [childCtx, htm]) children
    simp [decorateNode, hid]
  · intro defs ctx root h
    exact noNested_decorate defs ctx _ (noNested_decorate defs ctx root h)

/-- Witness for C9: a marker produced from the `std-move` definition is left
untouched by a further decoration pass. -/
theorem decorate_idempotent_no_nesting_witness :
    decorateNode [stdMoveDef] ⟨false, false, "DIV", false⟩
        (DNode.elem "SPAN" ["tooltip-term"] [DNode.text "std::move(x)".toList]) =
      [DNode.elem "SPAN" ["tooltip-term"] [DNode.text "std::move(x)".toList]] :=
  decorate_idempotent_no_nesting.1 [stdMoveDef] ⟨false, false, "DIV", false⟩
    "SPAN" ["tooltip-term"] [DNode.text "std::move(x)".toList] (by decide)

/-! ## Content loader lemmas (claims C1, C3, C6, C7, C8) -/

/-- The message of the error thrown by attempt `i` in `_fetchContent`. -/
def failMsgAt (net : Nat → NetResult) (i : Nat) : String :=
  match net i with
  | NetResult.failure msg => msg
  | NetResult.success _ => "Empty content received"

/-- A permanently failing network: every attempt is a network / HTTP error
or a 2xx response whose body is blank. -/
def AllAttemptsFail (net : Nat → NetResult) : Prop :=
  ∀ i, match net i with
       | NetResult.failure _ => True
       | NetResult.success body => trimEmpty body = true

theorem fetchContentAux_step (net : Nat → NetResult) (k : String)
    (fuel i r : Nat) :
    fetchContentAux net k (fuel + 1) i r =
      match net i with
      | NetResult.success body =>
          if trimEmpty body then
            if r < APP_CONFIG.content.retryAttempts then
              let rr := fetchContentAux net k fuel (i + 1) (r + 1)
              (rr.1, rr.2.1 + 1, rr.2.2)
            else (getFallbackContent k "Empty content received", 1, r)
          else (body, 1, r)
      | NetResult.failure msg =>
          if r < APP_CONFIG.content.retryAttempts then
            let rr := fetchContentAux net k fuel (i + 1) (r + 1)
            (rr.1, rr.2.1 + 1, rr.2.2)
          else (getFallbackContent k msg, 1, r) := rfl

/-- With the configured `retryAttempts = 3` and the retry counter starting at
zero, a permanently failing network makes 4 total attempts (1 + 3 retries)
and resolves to the fallback document carrying the message of the last
(fourth) attempt, leaving the retry counter at 3. -/
theorem fetchContent_allfail0 (net : Nat → NetResult) (k : String)
    (hf : AllAttemptsFail net) :
    fetchContent net k 0 0 = (getFallbackContent k (failMsgAt net 3), 4, 3) := by
  have h3 : fetchContentAux net k (0 + 1) 3 3 =
      (getFallbackContent k (failMsgAt net 3), 1, 3) := by
    rw [fetchContentAux_step]
    have hb := hf 3
    rcases hnet : net 3 with body | msg
    · rw [hnet] at hb
      simp [hnet, hb, failMsgAt, APP_CONFIG]
    · simp [hnet, failMsgAt, APP_CONFIG]
  have h2 : fetchContentAux net k (1 + 1) 2 2 =
      (getFallbackContent k (failMsgAt net 3), 2, 3) := by
    rw [fetchContentAux_step]
    have hb := hf 2
    rcases hnet : net 2 with body | msg
    · rw [hnet] at hb
      simp [hnet, hb, APP_CONFIG, h3]
    · simp [hnet, APP_CONFIG, h3]
  have h1 : fetchContentAux net k (2 + 1) 1 1 =
      (getFallbackContent k (failMsgAt net 3), 3, 3) := by
    rw [fetchContentAux_step]
    have hb := hf 1
    rcases hnet : net 1 with body | msg
    · rw [hnet] at hb
      simp [hnet, hb, APP_CONFIG, h2]
    · simp [hnet, APP_CONFIG, h2]
  have h0 : fetchContentAux net k (3 + 1) 0 0 =
      (getFallbackContent k (failMsgAt net 3), 4, 3) := by
    rw [fetchContentAux_step]
    have hb := hf 0
    rcases hnet : net 0 with body | msg
    · rw [hnet] at hb
      simp [hnet, hb, APP_CONFIG, h1]
    · simp [hnet, APP_CONFIG, h1]
  exact h0

/-- A network whose first attempt returns a blank-body 2xx response and
whose later attempts are server errors. -/
def sampleFailingNet : Nat → NetResult
  | 0 => NetResult.success "   "
  | _ + 1 => NetResult.failure "HTTP 500: Internal Server Error"

/-- A network that is down on every attempt. -/
def sampleDownNet : Nat → NetResult := fun _ => NetResult.failure "Failed to fetch"

/-- A network answering 404 on every attempt (an unknown content file). -/
def sample404Net : Nat → NetResult := fun _ => NetResult.failure "HTTP 404: Not Found"

/-- C6: with `retryAttempts = 3` and a zero retry counter, a permanently
failing network retrieval causes exactly 3 retries — 4 total attempts —
after which the fallback document is returned (with the retry counter left
at 3); an empty-body 2xx response counts as a failure exactly like a
network error, since `AllAttemptsFail` admits both. -/
theorem retry_ceiling_allfail :
    APP_CONFIG.content.retryAttempts = 3 ∧
    ∀ (net : Nat → NetResult) (k : String), AllAttemptsFail net →
      fetchContent net k 0 0 = (getFallbackContent k (failMsgAt net 3), 4, 3) :=
  ⟨rfl, fun net k hf => fetchContent_allfail0 net k hf⟩

/-- Witness for C6: a network whose first attempt has an empty body and
whose later attempts are HTTP 500 errors makes 4 attempts and falls back. -/
theorem retry_ceiling_allfail_witness :
    fetchContent sampleFailingNet "vector" 0 0 =
      (getFallbackContent "vector" (failMsgAt sampleFailingNet 3), 4, 3) :=
  retry_ceiling_allfail.2 sampleFailingNet "vector"
    (by
      intro i
      cases i with
      | zero => show (trimEmpty "   " = true); decide
      | succ n => trivial)

/-- C7: the cache check returns stored content iff an entry exists and
`now - timestamp < cacheTimeout`; a fresh entry makes `loadContent` return
the cached content with zero network attempts and an unchanged state; a
stale entry behaves as absent without being deleted (the state, hence the
entry, is untouched by the cache check), and a subsequent store for the key
still succeeds. -/
theorem cache_ttl_semantics :
    (∀ (cache : List (String × CacheEntry)) (k : String) (now : Nat) (c : String),
        cacheGet cache k now = some c ↔
          ∃ e : CacheEntry, mapGet cache k = some e ∧
            now - e.timestamp < APP_CONFIG.content.cacheTimeout ∧ c = e.content) ∧
    (∀ (net : Nat → NetResult) (st : LoaderState) (now endNow : Nat) (k : String)
        (e : CacheEntry), mapGet st.cache k = some e →
        now - e.timestamp < APP_CONFIG.content.cacheTimeout →
        loadContentRun net st now endNow k true = some (e.content, st, 0)) ∧
    (∀ (st : LoaderState) (now : Nat) (k : String) (e : CacheEntry),
        mapGet st.cache k = some e →
        ¬ now - e.timestamp < APP_CONFIG.content.cacheTimeout →
        cacheGet st.cache k now = none ∧
        (∀ (st' : LoaderState) (pid : Nat),
          loadContentStart st now k true = LoadStart.started st' pid →
          st'.cache = st.cache) ∧
        (∀ (c : String) (ts : Nat),
          mapGet (mapSet st.cache k ⟨c, ts⟩) k = some ⟨c, ts⟩)) := by
  refine ⟨?_, ?_, ?_⟩
  · intro cache k now c
    unfold cacheGet
    cases hm : mapGet cache k with
    | none => simp
    | some e =>
        by_cases h : now - e.timestamp < APP_CONFIG.content.cacheTimeout
        · simp [h, eq_comm]
        · simp [h]
  · intro net st now endNow k e hm h
    have hcg : cacheGet st.cache k now = some e.content := by
      simp [cacheGet, hm, h]
    simp [loadContentRun, loadContentStart, hcg]
  · intro st now k e hm h
    refine ⟨by simp [cacheGet, hm, h], ?_, fun c ts => mapGet_mapSet_self _ _ _⟩
    intro st' pid hs
    unfold loadContentStart at hs
    have hcg : cacheGet st.cache k now = none := by simp [cacheGet, hm, h]
    rw [if_pos rfl] at hs
    rw [hcg] at hs
    cases hmp : mapGet st.loadingPromises k with
    | some pid' => rw [hmp] at hs; simp at hs
    | none =>
        rw [hmp] at hs
        simp only [LoadStart.started.injEq] at hs
        rw [← hs.1]

/-- Witness for C7: a one-second-old entry under the five-minute TTL is
served from cache with zero network attempts. -/
theorem cache_ttl_semantics_witness :
    loadContentRun sampleDownNet
        ⟨[("vector", ⟨"<p>ok</p>", 100⟩)], [], [], 0⟩ 1100 1100 "vector" true =
      some ("<p>ok</p>", ⟨[("vector", ⟨"<p>ok</p>", 100⟩)], [], [], 0⟩, 0) :=
  cache_ttl_semantics.2.1 sampleDownNet
    ⟨[("vector", ⟨"<p>ok</p>", 100⟩)], [], [], 0⟩ 1100 1100 "vector"
    ⟨"<p>ok</p>", 100⟩ (by decide) (by decide)

/-- C8: once a `loadContent` call has started a fetch for a key, a second
call for the same key issued at any later time while the promise is pending
finds the registered promise and returns exactly it (`joined` with the same
promise identity), performing no state change and no additional network
retrieval (`loadContentRun` reports no new fetch). -/
theorem inflight_coalescing (st : LoaderState) (now1 : Nat) (k : String)
    (st' : LoaderState) (pid : Nat)
    (hs : loadContentStart st now1 k true = LoadStart.started st' pid) :
    mapGet st'.loadingPromises k = some pid ∧
    ∀ now2, now1 ≤ now2 →
      loadContentStart st' now2 k true = LoadStart.joined pid ∧
      ∀ (net : Nat → NetResult) (endNow : Nat),
        loadContentRun net st' now2 endNow k true = none := by
  unfold loadContentStart at hs
  rw [if_pos rfl] at hs
  cases hcg : cacheGet st.cache k now1 with
  | some c => rw [hcg] at hs; simp at hs
  | none =>
      rw [hcg] at hs
      cases hmp : mapGet st.loadingPromises k with
      | some pid' => rw [hmp] at hs; simp at hs
      | none =>
          rw [hmp] at hs
          simp only [LoadStart.started.injEq] at hs
          obtain ⟨hst, hpid⟩ := hs
          subst hst
          subst hpid
          have hget : mapGet (mapSet st.loadingPromises k st.nextPromiseId) k =
              some st.nextPromiseId := mapGet_mapSet_self _ _ _
          refine ⟨hget, ?_⟩
          intro now2 h12
          have hcg2 : cacheGet st.cache k now2 = none := by
            unfold cacheGet at hcg ⊢
            cases hm : mapGet st.cache k with
            | none => simp
            | some e =>
                rw [hm] at hcg
                by_cases hfresh : now1 - e.timestamp < APP_CONFIG.content.cacheTimeout
                · simp [hfresh] at hcg
                · have h2 : ¬ now2 - e.timestamp < APP_CONFIG.content.cacheTimeout := by
                    simp only [APP_CONFIG] at hfresh ⊢
                    omega
                  simp [h2]
          have hstart : loadContentStart
              { st with
                  loadingPromises := mapSet st.loadingPromises k st.nextPromiseId
                  nextPromiseId := st.nextPromiseId + 1 } now2 k true =
              LoadStart.joined st.nextPromiseId := by
            unfold loadContentStart
            rw [if_pos rfl]
            rw [show ({ st with
                  loadingPromises := mapSet st.loadingPromises k st.nextPromiseId
                  nextPromiseId := st.nextPromiseId + 1 } : LoaderState).cache =
                st.cache from rfl]
            rw [hcg2, hget]
          exact ⟨hstart, fun net endNow => by
            unfold loadContentRun
            rw [hstart]⟩

/-- Witness for C8: a started fetch for `vector` is joined by a second call
with the same promise identity. -/
theorem inflight_coalescing_witness :
    loadContentStart ⟨[], [("vector", 0)], [], 1⟩ 1 "vector" true =
      LoadStart.joined 0 :=
  ((inflight_coalescing ⟨[], [], [], 0⟩ 0 "vector"
    ⟨[], [("vector", 0)], [], 1⟩ 0 rfl).2 1 (by decide)).1

/-- C1 (counterexample): on a permanently failing network, `loadContent`
resolves to the fallback document and stores it in the cache — the state
after the load carries a cache entry whose content is the fallback — and a
subsequent load of the same key within the TTL returns that fallback from
the cache with zero network attempts, contrary to the claim that the
fallback is not cached. -/
theorem fallback_cached_cex :
    loadContentRun sampleDownNet ⟨[], [], [], 0⟩ 0 5 "vector" true =
      some (getFallbackContent "vector" "Failed to fetch",
        ⟨[("vector", ⟨getFallbackContent "vector" "Failed to fetch", 5⟩)],
          [], [], 1⟩, 4) ∧
    loadContentRun sampleDownNet
        ⟨[("vector", ⟨getFallbackContent "vector" "Failed to fetch", 5⟩)],
          [], [], 1⟩ 6 7 "vector" true =
      some (getFallbackContent "vector" "Failed to fetch",
        ⟨[("vector", ⟨getFallbackContent "vector" "Failed to fetch", 5⟩)],
          [], [], 1⟩, 0) :=
  ⟨rfl, rfl⟩

/-- C1 (amended): when `_fetchContent` exhausts its retries it resolves (it
does not reject) with the synthesized fallback document, and `loadContent`
therefore caches the fallback like any successful result: the state after
the load stores the fallback under the key with the completion timestamp. -/
theorem fallback_cached_on_exhaustion (net : Nat → NetResult) (st : LoaderState)
    (k : String) (now endNow : Nat) (hf : AllAttemptsFail net)
    (hc : mapGet st.cache k = none) (hl : mapGet st.loadingPromises k = none)
    (hr : mapGet st.retryCount k = none) :
    ∃ st' : LoaderState,
      loadContentRun net st now endNow k true =
        some (getFallbackContent k (failMsgAt net 3), st', 4) ∧
      mapGet st'.cache k =
        some ⟨getFallbackContent k (failMsgAt net 3), endNow⟩ := by
  have hcg : cacheGet st.cache k now = none := by simp [cacheGet, hc]
  have hfc := fetchContent_allfail0 net k hf
  refine ⟨loadContentFinish
      { st with
          loadingPromises := mapSet st.loadingPromises k st.nextPromiseId
          nextPromiseId := st.nextPromiseId + 1
          retryCount := mapSet st.retryCount k 3 } k
      (getFallbackContent k (failMsgAt net 3)) endNow, ?_, ?_⟩
  · simp only [loadContentRun, loadContentStart, if_true, hcg, hl, hr,
      Option.getD_none, hfc]
  · simp [loadContentFinish, mapGet_mapSet_self]

/-- Witness for C1 (amended): concrete run on an empty loader state. -/
theorem fallback_cached_on_exhaustion_witness :
    ∃ st' : LoaderState,
      loadContentRun sampleDownNet ⟨[], [], [], 0⟩ 0 5 "vector" true =
        some (getFallbackContent "vector" (failMsgAt sampleDownNet 3), st', 4) ∧
      mapGet st'.cache "vector" =
        some ⟨getFallbackContent "vector" (failMsgAt sampleDownNet 3), 5⟩ :=
  fallback_cached_on_exhaustion sampleDownNet ⟨[], [], [], 0⟩ "vector" 0 5
    (by intro i; trivial) rfl rfl rfl

/-- C3 (counterexample): for a key absent from the configured tab set, the
`ContentLoader` performs no validation: with every fetch answering 404, the
load is retried 3 times (4 attempts) and resolves with the fallback
document instead of failing immediately to the caller. -/
theorem unknown_key_retried_cex :
    APP_CONFIG.tabs.find? (fun tab => tab.id == "nonexistent") = none ∧
    fetchContent sample404Net "nonexistent" 0 0 =
      (getFallbackContent "nonexistent" "HTTP 404: Not Found", 4, 3) ∧
    loadContentRun sample404Net ⟨[], [], [], 0⟩ 0 1 "nonexistent" true =
      some (getFallbackContent "nonexistent" "HTTP 404: Not Found",
        ⟨[("nonexistent",
            ⟨getFallbackContent "nonexistent" "HTTP 404: Not Found", 1⟩)],
          [], [], 1⟩, 4) :=
  ⟨by decide, rfl, rfl⟩

/-- C3 (amended): it is the app controller `CPPGuideApp.loadContent` that
validates keys against its tab configuration and throws immediately — no
network call, no retries — for an unknown key; the `ContentLoader` module
performs no key validation, so an unknown key whose fetches fail follows
the ordinary retried network-failure path and ends in the fallback
document. -/
theorem unknown_key_paths :
    (∀ (cache : List (String × String)) (k : String) (response : NetResult),
        mapGet cache k = none →
        tabsConfig.find? (fun tab => tab.id == k) = none →
        appLoadContent cache k response =
          (AppLoadResult.errorThrown ("Tab configuration not found for: " ++ k), 0)) ∧
    (∀ (net : Nat → NetResult) (k : String), AllAttemptsFail net →
        APP_CONFIG.tabs.find? (fun tab => tab.id == k) = none →
        fetchContent net k 0 0 =
          (getFallbackContent k (failMsgAt net 3), 4, 3)) := by
  constructor
  · intro cache k response hc ht
    simp [appLoadContent, hc, ht]
  · intro net k hf _
    exact fetchContent_allfail0 net k hf

/-- Witness for C3 (amended): the controller throws immediately with zero
network calls for the unknown key `nonexistent`. -/
theorem unknown_key_paths_witness :
    appLoadContent [] "nonexistent" (NetResult.failure "HTTP error! status: 404") =
      (AppLoadResult.errorThrown ("Tab configuration not found for: " ++ "nonexistent"), 0) :=
  unknown_key_paths.1 [] "nonexistent" (NetResult.failure "HTTP error! status: 404")
    rfl (by decide)
